import Mathlib

/-!
Verification of the budget-shopping classroom app (`src/app.py`).

The program is a three-screen Streamlit workflow (mission selection →
shopping → result/submission) over a single mutable session state.  This
file gives a shallow embedding of that program: the session record, the
mission table, the cart functions, the catalog column resolution, and the
line-building part of the PNG submission renderer, each translated from the
corresponding Python in `src/app.py`.  UI rendering (Streamlit widgets, PIL
drawing) is not modelled beyond the data it displays; the file-system write
of the PNG is modelled as the list of text lines that the renderer draws.
-/

namespace BudgetApp

/-- Python whitespace characters recognised by `str.strip` / `str.split`
(ASCII subset: space, tab, newline, carriage return, vertical tab, form
feed). Models the CPython notion of whitespace used in `app.py`. -/
def isPyWs (c : Char) : Bool :=
  c == ' ' || c == '\t' || c == '\n' || c == '\r' ||
  c == Char.ofNat 11 || c == Char.ofNat 12

/-- Modelled from Python `str.strip()` with no argument: drop leading and
trailing whitespace. Used by `app.py` line 322 (`st.session_state.reason.strip()`)
and line 114 (`para.strip()`). -/
def pyStrip (s : String) : String :=
  String.mk (((s.toList.dropWhile isPyWs).reverse.dropWhile isPyWs).reverse)

/-- Insert a comma after every third character of a reversed digit list.
Helper for the thousands-separator format `f"{n:,}"`. -/
def commaGroupRev : List Char → List Char
  | a :: b :: c :: d :: rest => a :: b :: c :: ',' :: commaGroupRev (d :: rest)
  | l => l

/-- Decimal rendering of a natural number with thousands separators. -/
def natComma (n : ℕ) : String :=
  String.mk (commaGroupRev (Nat.toDigits 10 n).reverse).reverse

/-- Modelled from the Python format specifier `f"{n:,}"` on an `int`:
decimal digits grouped in threes by commas, with a leading minus sign for
negative numbers. -/
def formatComma (n : ℤ) : String :=
  if n < 0 then "-" ++ natComma n.natAbs else natComma n.natAbs

/-- Modelled from the Python builtin `int()` applied to a number: truncation
toward zero (the fractional part is dropped). -/
def pyInt (q : ℚ) : ℤ :=
  if 0 ≤ q.num then ((q.num.toNat / q.den : ℕ) : ℤ)
  else -(((-q.num).toNat / q.den : ℕ) : ℤ)

/-- Split a character list at every separator character (Python
`str.split(sep)` semantics: empty pieces are kept, the empty text gives one
empty piece). -/
def splitWhen (p : Char → Bool) : List Char → List (List Char)
  | [] => [[]]
  | c :: rest =>
    if p c then [] :: splitWhen p rest
    else
      match splitWhen p rest with
      | [] => [[c]]
      | w :: ws => (c :: w) :: ws

/-- Modelled from Python `str.expandtabs(tabsize)`: each tab advances to
the next multiple of `tabsize` columns; the column count restarts after a
newline or carriage return. First argument after `tabsize` is the current
column. -/
def expandTabs (tabsize : ℕ) : ℕ → List Char → List Char
  | _, [] => []
  | col, c :: rest =>
    if c = '\t' then
      if 0 < tabsize then
        let n := tabsize - col % tabsize
        List.replicate n ' ' ++ expandTabs tabsize (col + n) rest
      else expandTabs tabsize col rest
    else if c = '\n' ∨ c = '\r' then c :: expandTabs tabsize 0 rest
    else c :: expandTabs tabsize (col + 1) rest

/-- `TextWrapper._munge_whitespace` with the default options: expand tabs
to 8 columns, then replace each of the six recognised whitespace
characters by a space. -/
def munge (cs : List Char) : List Char :=
  (expandTabs 8 0 cs).map (fun c => if isPyWs c then ' ' else c)

/-- The regex class `[^\d\W]` of `textwrap.wordsep_re` (a word character
that is not a digit). Modelled for ASCII letters, underscore and Hangul
syllables (the character sets this program's text uses). -/
def isLetU (c : Char) : Bool :=
  c.isAlpha || c == '_' || (0xAC00 ≤ c.toNat && c.toNat ≤ 0xD7A3)

/-- The regex class `\w` of `textwrap.wordsep_re`, on the same modelled
character sets as `isLetU`. -/
def isWordC (c : Char) : Bool :=
  c.isAlphanum || c == '_' || (0xAC00 ≤ c.toNat && c.toNat ≤ 0xD7A3)

/-- The `word_punct` class `[\w!"'&.,?]` of `textwrap.wordsep_re`. -/
def isWordPunct (c : Char) : Bool :=
  isWordC c || c == '!' || c == Char.ofNat 34 || c == Char.ofNat 39 ||
  c == '&' || c == '.' || c == ',' || c == '?'

/-- Whether the character at index `i` exists and satisfies `p`; the
lookbehind/lookahead primitive of the `wordsep_re` model. -/
def atIs (cs : List Char) (i : ℕ) (p : Char → Bool) : Bool :=
  match cs[i]? with
  | some c => p c
  | none => false

/-- A hyphen character test, for the `wordsep_re` model. -/
def isHy (c : Char) : Bool := c == '-'

/-- Length of the hyphen run starting at index `i`. -/
def hyphenRunAt (cs : List Char) (i : ℕ) : ℕ :=
  ((cs.drop i).takeWhile isHy).length

/-- The `(?=[whitespace]|\Z)` end-of-word condition of `wordsep_re`. -/
def atWordEnd (cs : List Char) (j : ℕ) : Bool :=
  match cs[j]? with
  | none => true
  | some c => isPyWs c

/-- The hyphenated-word alternative of `wordsep_re`: a chunk may end at
`j` when the previous character is a hyphen whose lookbehind is
letter-letter-hyphen or letter-hyphen-letter-hyphen, and the lookahead is
letter, optional hyphen, letter. -/
def hyphenSplitAt (cs : List Char) (j : ℕ) : Bool :=
  atIs cs (j - 1) isHy &&
  ((decide (3 ≤ j) && atIs cs (j - 3) isLetU && atIs cs (j - 2) isLetU) ||
   (decide (4 ≤ j) && atIs cs (j - 4) isLetU && atIs cs (j - 3) isHy &&
    atIs cs (j - 2) isLetU)) &&
  atIs cs j isLetU &&
  (atIs cs (j + 1) isLetU || (atIs cs (j + 1) isHy && atIs cs (j + 2) isLetU))

/-- The `(?<=[\w!"'&.,?])(?=-{2,}\w)` em-dash-ahead alternative of
`wordsep_re`: a chunk may end at `j` right before an em-dash run that is
followed by a word character. -/
def emDashAheadAt (cs : List Char) (j : ℕ) : Bool :=
  atIs cs (j - 1) isWordPunct &&
  decide (2 ≤ hyphenRunAt cs j) && atIs cs (j + hyphenRunAt cs j) isWordC

/-- The lazy `\S+?` scan of `wordsep_re`: the smallest end position `≥ j`
at which the current word chunk may stop. The fuel bounds the scan. -/
def findWordEnd (cs : List Char) : ℕ → ℕ → ℕ
  | 0, j => j
  | fuel + 1, j =>
    if atWordEnd cs j || hyphenSplitAt cs j || emDashAheadAt cs j then j
    else findWordEnd cs fuel (j + 1)

/-- `TextWrapper._split` with `break_on_hyphens=True`: cut the munged text
into chunks (whitespace runs, em-dash runs between word-punct and word
characters, and words ended at hyphenation points). The fuel bounds the
number of chunks. -/
def splitChunksAux (cs : List Char) : ℕ → ℕ → List (List Char)
  | 0, _ => []
  | fuel + 1, i =>
    match cs[i]? with
    | none => []
    | some c =>
      if isPyWs c then
        let r := ((cs.drop i).takeWhile isPyWs).length
        (cs.drop i).take r :: splitChunksAux cs fuel (i + r)
      else
        let r := hyphenRunAt cs i
        if isHy c && decide (2 ≤ r) && decide (1 ≤ i) &&
            atIs cs (i - 1) isWordPunct && atIs cs (i + r) isWordC then
          (cs.drop i).take r :: splitChunksAux cs fuel (i + r)
        else
          let j := findWordEnd cs (cs.length + 1) (i + 1)
          (cs.drop i).take (j - i) :: splitChunksAux cs fuel j

/-- All chunks of the munged text, `TextWrapper._split_chunks` without the
munging step. -/
def splitChunks (cs : List Char) : List (List Char) :=
  splitChunksAux cs (cs.length + 1) 0

/-- `chunk.strip() == ''`: a chunk that is entirely whitespace. -/
def isWsChunk (ch : List Char) : Bool := ch.all isPyWs

/-- Index of the last hyphen of a chunk (`chunk.rfind('-')`). -/
def lastHyphenIdx : List Char → Option ℕ
  | [] => none
  | c :: rest =>
    match lastHyphenIdx rest with
    | some k => some (k + 1)
    | none => if isHy c then some 0 else none

/-- `TextWrapper._handle_long_word` with the default `break_long_words`
and `break_on_hyphens`: chop off as much of the over-long chunk as fits in
the space left on the current line, preferring to cut just after the last
hyphen of that prefix when the chunk has a non-hyphen before it. Returns
the piece for the current line and the remainder. -/
def handleLongWord (width cur_len : ℕ) (chunk : List Char) :
    List Char × List Char :=
  let space_left := if width < 1 then 1 else width - cur_len
  let endPos :=
    if space_left < chunk.length then
      match lastHyphenIdx (chunk.take space_left) with
      | some h =>
        if 0 < h ∧ (chunk.take h).any (fun c => !isHy c) then h + 1
        else space_left
      | none => space_left
    else space_left
  (chunk.take endPos, chunk.drop endPos)

/-- The greedy inner loop of `TextWrapper._wrap_chunks`: move chunks onto
the current line while they fit. Returns the consumed chunks, the line
length so far and the remaining chunks. -/
def greedyTake (width : ℕ) : ℕ → List (List Char) →
    List (List Char) × ℕ × List (List Char)
  | cur_len, [] => ([], cur_len, [])
  | cur_len, ch :: rest =>
    if cur_len + ch.length ≤ width then
      match greedyTake width (cur_len + ch.length) rest with
      | (took, fin, rem) => (ch :: took, fin, rem)
    else ([], cur_len, ch :: rest)

/-- The outer loop of `TextWrapper._wrap_chunks` with the default options
(no indents, no `max_lines`): per line, drop one leading whitespace chunk
unless no line was produced yet, fill greedily, chop an over-long next
chunk, drop a trailing whitespace chunk, and keep the line when it is
non-empty. The fuel bounds the number of iterations. -/
def wrapLoop (width : ℕ) : ℕ → Bool → List (List Char) → List (List Char)
  | 0, _, _ => []
  | fuel + 1, first, chunks =>
    match chunks with
    | [] => []
    | c0 :: rest0 =>
      let chunks1 := if !first && isWsChunk c0 then rest0 else c0 :: rest0
      match greedyTake width 0 chunks1 with
      | (cur, cur_len, rest) =>
        let handled :=
          match rest with
          | [] => (cur, rest)
          | ch :: restT =>
            if width < ch.length then
              match handleLongWord width cur_len ch with
              | (piece, rem) => (cur ++ [piece], rem :: restT)
            else (cur, rest)
        let cur2 := handled.1
        let rest2 := handled.2
        let cur3 :=
          match cur2.getLast? with
          | some last => if isWsChunk last then cur2.dropLast else cur2
          | none => cur2
        match cur3 with
        | [] => wrapLoop width fuel first rest2
        | _ => cur3.flatten :: wrapLoop width fuel false rest2

/-- Modelled from Python `textwrap.wrap(text, width=width)` with all
default options, following `TextWrapper` step for step: munge whitespace
(tab expansion, whitespace replacement), split into word-wrappable chunks
with the `wordsep_re` rules (`break_on_hyphens`), then fill lines of at
most `width` characters, breaking over-long words (`break_long_words`) and
dropping whitespace at line boundaries (`drop_whitespace`). Character
classes are modelled for ASCII and Hangul text. -/
def pyWrap (width : ℕ) (s : String) : List String :=
  let cs := munge s.toList
  let chunks := splitChunks cs
  (wrapLoop width (cs.length + chunks.length + 1) true chunks).map String.mk

/-- A value held in one cell of the loaded catalog table: the CSV parser
yields either a number or a string. -/
inductive Cell where
  | num (q : ℚ)
  | str (v : String)
deriving DecidableEq, Repr

/-- Decimal value of a digit list, helper for `pyFloatNum`. -/
def digitsVal (cs : List Char) : ℕ :=
  cs.foldl (fun a c => 10 * a + (c.toNat - '0'.toNat)) 0

/-- The result of the Python builtin `float()` when it does not raise
`ValueError`: a finite value (modelled as its exact decimal rational), an
infinity, or a NaN. -/
inductive PyFloatVal where
  | finite (q : ℚ)
  | posInf
  | negInf
  | nan
deriving DecidableEq, Repr

/-- A digit-run character of a Python numeric literal: a decimal digit or
a digit-group underscore. -/
def isDigitOrU (c : Char) : Bool := c.isDigit || c == '_'

/-- No trailing underscore and no doubled underscore in a digit run;
helper for `okRun`. -/
def noTrailOrDouble : List Char → Bool
  | [] => true
  | ['_'] => false
  | '_' :: '_' :: _ => false
  | _ :: rest => noTrailOrDouble rest

/-- Underscore validity of a digit run per the Python float grammar: every
underscore stands strictly between two digits of the run. -/
def okRun (run : List Char) : Bool :=
  match run with
  | '_' :: _ => false
  | _ => noTrailOrDouble run

/-- The digits of a run with group underscores removed. -/
def runDigits (run : List Char) : List Char :=
  run.filter (fun c => c ≠ '_')

/-- Parse the optional exponent part `[eE][+-]?digits` of a float literal;
the remaining text must be empty. `some 0` when absent. -/
def parseExpPart (cs : List Char) : Option ℤ :=
  match cs with
  | [] => some 0
  | e :: rest =>
    if e == 'e' || e == 'E' then
      let sgnRest : ℤ × List Char :=
        match rest with
        | '+' :: r => (1, r)
        | '-' :: r => (-1, r)
        | r => (1, r)
      let run := sgnRest.2.takeWhile isDigitOrU
      let tail := sgnRest.2.drop run.length
      if okRun run && !run.isEmpty && tail.isEmpty then
        some (sgnRest.1 * (digitsVal (runDigits run) : ℤ))
      else none
    else none

/-- Parse an unsigned finite Python float literal
`digits [. digits] [exp]` (at least one mantissa digit; underscores
between digits allowed), applying the given sign to the exact value. -/
def pyFloatNum (sgn : ℤ) (cs : List Char) : Option ℚ :=
  let intRun := cs.takeWhile isDigitOrU
  let rest1 := cs.drop intRun.length
  let hasDot := rest1.head? == some '.'
  let afterDot := if hasDot then rest1.tail else rest1
  let fracRun := if hasDot then afterDot.takeWhile isDigitOrU else []
  let rest2 := if hasDot then afterDot.drop fracRun.length else rest1
  if okRun intRun && okRun fracRun && !(intRun.isEmpty && fracRun.isEmpty) then
    match parseExpPart rest2 with
    | none => none
    | some e =>
      let iv := digitsVal (runDigits intRun)
      let fv := digitsVal (runDigits fracRun)
      let fl := (runDigits fracRun).length
      let mant : ℤ := (iv : ℤ) * ((10 : ℕ) ^ fl : ℤ) + (fv : ℤ)
      if 0 ≤ e then
        some (mkRat (sgn * mant * ((10 : ℕ) ^ e.toNat : ℤ)) ((10 : ℕ) ^ fl))
      else
        some (mkRat (sgn * mant) ((10 : ℕ) ^ fl * (10 : ℕ) ^ (-e).toNat))
  else none

/-- Modelled from the Python builtin `float()` on a catalog cell: a
numeric cell converts to itself (numeric cells are modelled as finite); a
string cell is stripped of surrounding whitespace, an optional sign is
taken, and the rest is `inf`/`infinity`/`nan` (case-insensitive) or a
finite decimal literal with optional fraction, exponent and digit-group
underscores. `none` models `ValueError`. Declared model boundaries: digits
and whitespace are ASCII, and a finite value is kept as its exact decimal
rational (binary64 rounding, and saturation of huge exponents to
infinity, are outside the model). -/
def pyFloat : Cell → Option PyFloatVal
  | Cell.num q => some (PyFloatVal.finite q)
  | Cell.str v =>
    let cs := (pyStrip v).toList
    let negBody : Bool × List Char :=
      match cs with
      | '+' :: r => (false, r)
      | '-' :: r => (true, r)
      | r => (false, r)
    let low := negBody.2.map Char.toLower
    if low = "inf".toList ∨ low = "infinity".toList then
      some (if negBody.1 then PyFloatVal.negInf else PyFloatVal.posInf)
    else if low = "nan".toList then some PyFloatVal.nan
    else
      match pyFloatNum (if negBody.1 then -1 else 1) negBody.2 with
      | some q => some (PyFloatVal.finite q)
      | none => none

/-- The price computation of one shop-page row (`app.py` lines 221-225):
`float(row[price_col])` with `ValueError` caught and replaced by `0`
(lines 222-224), then `int(price_value)` on line 225, which is outside the
`try` and raises an uncaught `OverflowError` on an infinity and
`ValueError` on a NaN, halting the render (modelled as `Except.error`). -/
def rowPrice (c : Cell) : Except String ℚ :=
  match pyFloat c with
  | none => Except.ok 0
  | some (PyFloatVal.finite q) => Except.ok q
  | some PyFloatVal.posInf => Except.error "OverflowError"
  | some PyFloatVal.negInf => Except.error "OverflowError"
  | some PyFloatVal.nan => Except.error "ValueError"

/-- The three screens of the workflow (`st.session_state.page` takes the
values "mission", "shop", "result"). -/
inductive Screen where
  | mission
  | shop
  | result
deriving DecidableEq, Repr

/-- One cart entry, as built by `add_to_cart` (`app.py` lines 79-82):
a dict with keys `name`, `price`, `image_url`. -/
structure CartItem where
  name : String
  price : ℚ
  image_url : Option String
deriving DecidableEq, Repr

/-- The session state of `app.py` (lines 19-32): current page, selected
mission label, budget, cart, and the justification text (`reason`). -/
structure SessionState where
  page : Screen
  mission : Option String
  budget : ℚ
  cart : List CartItem
  reason : String
deriving DecidableEq, Repr

/-- The initial session state (`app.py` lines 19-32): page "mission", no
mission, budget 0, empty cart, empty reason. -/
def initState : SessionState :=
  { page := Screen.mission, mission := none, budget := 0, cart := [], reason := "" }

/-- The configured mission table `MISSIONS` (`app.py` lines 38-42):
label → budget amount. -/
def MISSIONS : List (String × ℕ) :=
  [("절약형 장보기 (예산 10,000원)", 10000),
   ("균형 잡힌 장보기 (예산 20,000원)", 20000),
   ("풍성한 장보기 (예산 30,000원)", 30000)]

/-- `add_to_cart` (`app.py` lines 79-82): append a new cart entry. Acting
on the cart list, since that is the only state it touches. -/
def add_to_cart (cart : List CartItem) (name : String) (price : ℚ)
    (image_url : Option String) : List CartItem :=
  cart ++ [{ name := name, price := price, image_url := image_url }]

/-- `calc_cart_total` (`app.py` lines 85-86): sum of `price` over the cart. -/
def calc_cart_total (cart : List CartItem) : ℚ :=
  (cart.map CartItem.price).sum

/-- `get_column_name` (`app.py` lines 66-76): resolve a column under its
Korean or English spelling; when neither is present, `st.error` shows a
message naming both spellings and `st.stop()` halts the render, modelled
as `Except.error` carrying that message. -/
def get_column_name (cols : List String) (kor eng label : String) :
    Except String String :=
  if kor ∈ cols then Except.ok kor
  else if eng ∈ cols then Except.ok eng
  else Except.error s!"products.csv에 '{kor}' 또는 '{eng}' 열이 필요합니다. ({label})"

/-- One product record as the shop page extracts it from a catalog row. -/
structure Product where
  name : Cell
  price : ℚ
  image_url : Option Cell
deriving Repr

/-- The row loop of the shop page (`app.py` lines 205-233): each row in
order yields a product record with the row's name cell, its price via
`rowPrice`, and its optional image cell; a row whose price computation
raises an uncaught exception halts the loop. A row is a map from column
name to cell, as `pandas` row indexing provides. -/
def buildProducts (name_col price_col : String) (image_col : Option String) :
    List (String → Cell) → Except String (List Product)
  | [] => Except.ok []
  | row :: rest =>
    match rowPrice (row price_col) with
    | Except.error e => Except.error e
    | Except.ok p =>
      match buildProducts name_col price_col image_col rest with
      | Except.error e => Except.error e
      | Except.ok ps =>
        Except.ok
          ({ name := row name_col, price := p, image_url := image_col.map row }
            :: ps)

/-- The column-resolution and per-row extraction of the shop page
(`app.py` lines 193-233): resolve the name and price columns (halting when
one is missing), pick the first present image-column spelling, and produce
one product per catalog row. -/
def loadShopProducts (cols : List String) (rows : List (String → Cell)) :
    Except String (List Product) :=
  match get_column_name cols "품명" "name" "품명(상품명)" with
  | Except.error e => Except.error e
  | Except.ok name_col =>
    match get_column_name cols "가격" "price" "가격" with
    | Except.error e => Except.error e
    | Except.ok price_col =>
      let image_col : Option String :=
        if "이미지url" ∈ cols then some "이미지url"
        else if "이미지URL" ∈ cols then some "이미지URL"
        else if "image_url" ∈ cols then some "image_url"
        else none
      buildProducts name_col price_col image_col rows

/-- The budget line of the submission image (`app.py` line 101):
`f"예산: {int(budget):,}원"`. -/
def budgetLine (budget : ℚ) : String :=
  s!"예산: {formatComma (pyInt budget)}원"

/-- One purchased-item line of the submission image (`app.py` line 106):
`f"- {item['name']} ({int(item['price']):,}원)"`. -/
def itemLine (item : CartItem) : String :=
  s!"- {item.name} ({formatComma (pyInt item.price)}원)"

/-- The display lines of `create_submission_png` (`app.py` lines 99-118),
built exactly in the source's order: mission line, budget line, blank,
items header, the cart loop (or the no-items placeholder), blank, reason
header, then the reason split at newlines with blank lines for empty
paragraphs and `textwrap.wrap(para, width=30)` otherwise. -/
def buildLines (mission : String) (budget : ℚ) (cart : List CartItem)
    (reason_text : String) : List String :=
  let lines : List String := []
  let lines := lines ++ [s!"미션: {mission}"]
  let lines := lines ++ [budgetLine budget]
  let lines := lines ++ [""]
  let lines := lines ++ ["▶ 구매한 물품"]
  let lines :=
    if cart.isEmpty then lines ++ ["- (구매한 물품 없음)"]
    else cart.foldl (fun acc item => acc ++ [itemLine item]) lines
  let lines := lines ++ [""]
  let lines := lines ++ ["▶ 구매 이유"]
  (((splitWhen (fun c => c == '\n') reason_text.toList).map String.mk)).foldl
    (fun acc para =>
      if pyStrip para = "" then acc ++ [""]
      else (pyWrap 30 para).foldl (fun a w => a ++ [w]) acc)
    lines

/-- The "구매하기 ➜ 결과 화면으로 이동" handler of the shop page (`app.py`
lines 265-269), together with the page's guards (lines 179-183): with no
mission selected the body (and hence the button) does not render; with an
empty cart a warning is shown (the returned flag) and the state is left
unchanged; otherwise the page becomes "result". -/
def purchaseAction (s : SessionState) : SessionState × Bool :=
  if s.page = Screen.shop then
    match s.mission with
    | none => (s, false)
    | some _ =>
      if s.cart.isEmpty then (s, true)
      else ({ s with page := Screen.result }, false)
  else (s, false)

/-- The "제출 (PNG로 출력)" handler of the result page (`app.py` lines
321-330), with the page's guard (lines 279-283): with a blank (stripped
empty) reason a warning is shown (the flag) and nothing is rendered;
otherwise `create_submission_png` runs, modelled as the lines it draws.
The session state is returned unchanged in both branches, as the handler
never writes to it. -/
def submitAction (s : SessionState) : SessionState × Option (List String) × Bool :=
  if s.page = Screen.result then
    match s.mission with
    | none => (s, none, false)
    | some m =>
      if pyStrip s.reason = "" then (s, none, true)
      else (s, some (buildLines m s.budget s.cart s.reason), false)
  else (s, none, false)

/-- The user actions that mutate the session state: one per button or
widget of `app.py`. `confirmMission i` is the radio choice (an index into
the radio's options, `list(MISSIONS.keys())`) followed by the confirm
button; `addToCart` carries the cart entry the row's 담기 button builds. -/
inductive Action where
  | confirmMission (i : Fin MISSIONS.length)
  | shopBack
  | addToCart (item : CartItem)
  | purchase
  | resultBack
  | setReason (t : String)
  | submit

/-- One user action applied to the session state, as the screen handlers
of `app.py` execute it.  Each handler's writes are guarded by the page the
widget lives on (a button can only fire while its screen renders) and by
the screens' mission guards (lines 179-183, 279-283). -/
def step (s : SessionState) : Action → SessionState
  | Action.confirmMission i =>
    if s.page = Screen.mission then
      { s with mission := some (MISSIONS.get i).1
               budget := ((MISSIONS.get i).2 : ℚ)
               page := Screen.shop }
    else s
  | Action.shopBack =>
    if s.page = Screen.shop then { s with page := Screen.mission } else s
  | Action.addToCart item =>
    if s.page = Screen.shop ∧ s.mission.isSome then
      { s with cart := s.cart ++ [item] }
    else s
  | Action.purchase => (purchaseAction s).1
  | Action.resultBack =>
    if s.page = Screen.result then
      match s.mission with
      | none => { s with page := Screen.mission }
      | some _ => { s with page := Screen.shop }
    else s
  | Action.setReason t =>
    if s.page = Screen.result ∧ s.mission.isSome then { s with reason := t } else s
  | Action.submit => (submitAction s).1

/-- The session states reachable from the initial state by user actions. -/
inductive Reachable : SessionState → Prop
  | init : Reachable initState
  | step {s : SessionState} (a : Action) : Reachable s → Reachable (step s a)

/-- A sequence of `add_to_cart` calls, one per item of `adds`, applied to a
starting cart. -/
def addItems (cart : List CartItem) (adds : List CartItem) : List CartItem :=
  adds.foldl (fun c it => add_to_cart c it.name it.price it.image_url) cart

/-- Whether an action is the mission-confirmation button. -/
def isConfirmMission : Action → Bool
  | Action.confirmMission _ => true
  | _ => false

lemma addItems_eq_append (cart adds : List CartItem) :
    addItems cart adds = cart ++ adds := by
  induction adds generalizing cart with
  | nil => simp [addItems]
  | cons a t ih =>
    show addItems (add_to_cart cart a.name a.price a.image_url) t = cart ++ a :: t
    rw [ih, add_to_cart]
    simp

/-- C1. Confirming any mission of the configured table on the mission
screen sets the session budget to that mission's configured amount, records
the mission label, and moves to the shop screen. -/
theorem mission_confirm_sets_budget (s : SessionState) (i : Fin MISSIONS.length)
    (hp : s.page = Screen.mission) :
    (step s (Action.confirmMission i)).budget = ((MISSIONS.get i).2 : ℚ) ∧
    (step s (Action.confirmMission i)).mission = some (MISSIONS.get i).1 ∧
    (step s (Action.confirmMission i)).page = Screen.shop := by
  simp [step, hp]

theorem mission_confirm_sets_budget_witness :
    (step initState (Action.confirmMission ⟨0, by decide⟩)).budget
        = ((MISSIONS.get ⟨0, by decide⟩).2 : ℚ) ∧
    (step initState (Action.confirmMission ⟨0, by decide⟩)).mission
        = some (MISSIONS.get ⟨0, by decide⟩).1 ∧
    (step initState (Action.confirmMission ⟨0, by decide⟩)).page = Screen.shop :=
  mission_confirm_sets_budget initState ⟨0, by decide⟩ rfl

/-- C2. From any cart state, after any sequence of `add_to_cart` calls the
cart total is the arithmetic sum of the price fields of all cart items; the
total is invariant under permutation of the order of the added items; and
the total of an empty cart is `0`. -/
theorem cart_total_correct (cart adds adds2 : List CartItem)
    (hperm : adds.Perm adds2) :
    calc_cart_total (addItems cart adds)
        = calc_cart_total cart + (adds.map CartItem.price).sum ∧
    calc_cart_total (addItems cart adds) = calc_cart_total (addItems cart adds2) ∧
    calc_cart_total ([] : List CartItem) = 0 := by
  refine ⟨?_, ?_, rfl⟩
  · rw [addItems_eq_append]
    simp [calc_cart_total]
  · rw [addItems_eq_append, addItems_eq_append]
    simp [calc_cart_total, (hperm.map CartItem.price).sum_eq]

theorem cart_total_correct_witness :
    calc_cart_total
        (addItems [⟨"Egg", 500, none⟩]
          [⟨"Apple", 1500, none⟩, ⟨"Milk", 2500, none⟩])
        = calc_cart_total [⟨"Egg", 500, none⟩]
            + ([⟨"Apple", 1500, none⟩, ⟨"Milk", 2500, none⟩].map CartItem.price).sum ∧
    calc_cart_total
        (addItems [⟨"Egg", 500, none⟩]
          [⟨"Apple", 1500, none⟩, ⟨"Milk", 2500, none⟩])
        = calc_cart_total
            (addItems [⟨"Egg", 500, none⟩]
              [⟨"Milk", 2500, none⟩, ⟨"Apple", 1500, none⟩]) ∧
    calc_cart_total ([] : List CartItem) = 0 :=
  cart_total_correct [⟨"Egg", 500, none⟩]
    [⟨"Apple", 1500, none⟩, ⟨"Milk", 2500, none⟩]
    [⟨"Milk", 2500, none⟩, ⟨"Apple", 1500, none⟩]
    (List.Perm.swap (⟨"Milk", 2500, none⟩ : CartItem) (⟨"Apple", 1500, none⟩ : CartItem) [])

/-- C3. On the shop screen with a mission selected and an empty cart, the
purchase button warns (flag `true`) and leaves the whole session state
unchanged, so the screen stays `shop` and budget, cart and mission keep
their values. -/
theorem empty_cart_checkout_blocked (s : SessionState) (m : String)
    (hp : s.page = Screen.shop) (hm : s.mission = some m) (hc : s.cart = []) :
    purchaseAction s = (s, true) ∧ step s Action.purchase = s := by
  have h : purchaseAction s = (s, true) := by
    simp [purchaseAction, hp, hm, hc]
  exact ⟨h, by simp [step, h]⟩

theorem empty_cart_checkout_blocked_witness :
    purchaseAction
        { page := Screen.shop, mission := some "절약형 장보기 (예산 10,000원)",
          budget := 10000, cart := [], reason := "" }
      = ({ page := Screen.shop, mission := some "절약형 장보기 (예산 10,000원)",
           budget := 10000, cart := [], reason := "" }, true) ∧
    step
        { page := Screen.shop, mission := some "절약형 장보기 (예산 10,000원)",
          budget := 10000, cart := [], reason := "" } Action.purchase
      = { page := Screen.shop, mission := some "절약형 장보기 (예산 10,000원)",
          budget := 10000, cart := [], reason := "" } :=
  empty_cart_checkout_blocked _ "절약형 장보기 (예산 10,000원)" rfl rfl rfl

/-- C5. On the result screen with a mission selected, submitting with a
whitespace-only justification warns (flag `true`), invokes no rendering
(output `none`), and leaves the session state unchanged, the screen staying
`result`. -/
theorem blank_reason_submit_blocked (s : SessionState) (m : String)
    (hp : s.page = Screen.result) (hm : s.mission = some m)
    (hr : pyStrip s.reason = "") :
    submitAction s = (s, none, true) ∧ step s Action.submit = s ∧
    (step s Action.submit).page = Screen.result := by
  have h : submitAction s = (s, none, true) := by
    simp [submitAction, hp, hm, hr]
  refine ⟨h, ?_, ?_⟩ <;> simp [step, h, hp]

theorem blank_reason_submit_blocked_witness :
    submitAction
        { page := Screen.result, mission := some "절약형 장보기 (예산 10,000원)",
          budget := 10000, cart := [⟨"Apple", 1500, none⟩], reason := " \n  " }
      = ({ page := Screen.result, mission := some "절약형 장보기 (예산 10,000원)",
           budget := 10000, cart := [⟨"Apple", 1500, none⟩], reason := " \n  " },
         none, true) ∧
    step
        { page := Screen.result, mission := some "절약형 장보기 (예산 10,000원)",
          budget := 10000, cart := [⟨"Apple", 1500, none⟩], reason := " \n  " }
        Action.submit
      = { page := Screen.result, mission := some "절약형 장보기 (예산 10,000원)",
          budget := 10000, cart := [⟨"Apple", 1500, none⟩], reason := " \n  " } ∧
    (step
        { page := Screen.result, mission := some "절약형 장보기 (예산 10,000원)",
          budget := 10000, cart := [⟨"Apple", 1500, none⟩], reason := " \n  " }
        Action.submit).page = Screen.result :=
  blank_reason_submit_blocked _ "절약형 장보기 (예산 10,000원)" rfl rfl (by decide)

/-- C9. The back action from the shop screen changes only the current
screen (to `mission`), leaving budget, mission, cart and justification
untouched; and re-entering the shop by confirming any mission afterwards
keeps the existing cart. -/
theorem shop_back_frame (s : SessionState) (hp : s.page = Screen.shop) :
    step s Action.shopBack = { s with page := Screen.mission } ∧
    ∀ i : Fin MISSIONS.length,
      (step (step s Action.shopBack) (Action.confirmMission i)).cart = s.cart := by
  have h : step s Action.shopBack = { s with page := Screen.mission } := by
    simp [step, hp]
  exact ⟨h, fun i => by rw [h]; simp [step]⟩

theorem shop_back_frame_witness :
    step
        { page := Screen.shop, mission := some "절약형 장보기 (예산 10,000원)",
          budget := 10000, cart := [⟨"Apple", 1500, none⟩], reason := "r" }
        Action.shopBack
      = { page := Screen.mission, mission := some "절약형 장보기 (예산 10,000원)",
          budget := 10000, cart := [⟨"Apple", 1500, none⟩], reason := "r" } ∧
    ∀ i : Fin MISSIONS.length,
      (step
          (step
            { page := Screen.shop, mission := some "절약형 장보기 (예산 10,000원)",
              budget := 10000, cart := [⟨"Apple", 1500, none⟩], reason := "r" }
            Action.shopBack)
          (Action.confirmMission i)).cart
        = [({ name := "Apple", price := 1500, image_url := none } : CartItem)] :=
  shop_back_frame
    { page := Screen.shop, mission := some "절약형 장보기 (예산 10,000원)",
      budget := 10000, cart := [⟨"Apple", 1500, none⟩], reason := "r" } rfl

lemma purchaseAction_budget (s : SessionState) :
    ((purchaseAction s).1).budget = s.budget := by
  unfold purchaseAction
  split
  · split
    · rfl
    · split <;> rfl
  · rfl

lemma submitAction_state (s : SessionState) : (submitAction s).1 = s := by
  unfold submitAction
  split
  · split
    · rfl
    · split <;> rfl
  · rfl

lemma step_budget_frame (s : SessionState) (a : Action)
    (h : isConfirmMission a = false) : (step s a).budget = s.budget := by
  cases a with
  | confirmMission i => simp [isConfirmMission] at h
  | shopBack => by_cases hp : s.page = Screen.shop <;> simp [step, hp]
  | addToCart item =>
    by_cases hp : s.page = Screen.shop ∧ s.mission.isSome <;> simp [step, hp]
  | purchase => exact purchaseAction_budget s
  | resultBack =>
    show (if s.page = Screen.result then _ else s).budget = s.budget
    split
    · split <;> rfl
    · rfl
  | setReason t =>
    by_cases hp : s.page = Screen.result ∧ s.mission.isSome <;> simp [step, hp]
  | submit => exact congrArg SessionState.budget (submitAction_state s)

lemma reachable_budget_nonneg {s : SessionState} (hs : Reachable s) :
    0 ≤ s.budget := by
  induction hs with
  | init => exact le_refl 0
  | @step t a ht ih =>
    cases a with
    | confirmMission i =>
      by_cases hp : t.page = Screen.mission
      · simp [step, hp]
      · simpa [step, hp] using ih
    | shopBack => rw [step_budget_frame t Action.shopBack rfl]; exact ih
    | addToCart item => rw [step_budget_frame t (Action.addToCart item) rfl]; exact ih
    | purchase => rw [step_budget_frame t Action.purchase rfl]; exact ih
    | resultBack => rw [step_budget_frame t Action.resultBack rfl]; exact ih
    | setReason r => rw [step_budget_frame t (Action.setReason r) rfl]; exact ih
    | submit => rw [step_budget_frame t Action.submit rfl]; exact ih

/-- C8. In every reachable session state the budget is non-negative, and
any action other than confirming a mission leaves the budget unchanged. -/
theorem budget_invariant (s : SessionState) (a : Action) (hs : Reachable s) :
    0 ≤ s.budget ∧
    (isConfirmMission a = false → (step s a).budget = s.budget) :=
  ⟨reachable_budget_nonneg hs, fun h => step_budget_frame s a h⟩

theorem budget_invariant_witness :
    0 ≤ initState.budget ∧
    (isConfirmMission Action.shopBack = false →
      (step initState Action.shopBack).budget = initState.budget) :=
  budget_invariant initState Action.shopBack Reachable.init

/-- C6. When the catalog is missing both accepted spellings of a required
column, the shop render halts with an error message that names both
accepted spellings of a missing required column, and no product records
are produced. -/
theorem missing_column_halts (cols : List String) (rows : List (String → Cell))
    (h : ("품명" ∉ cols ∧ "name" ∉ cols) ∨ ("가격" ∉ cols ∧ "price" ∉ cols)) :
    ∃ msg : String, loadShopProducts cols rows = Except.error msg ∧
      ∃ kor eng : String,
        ((kor = "품명" ∧ eng = "name") ∨ (kor = "가격" ∧ eng = "price")) ∧
        kor ∉ cols ∧ eng ∉ cols ∧
        (∃ a b : String, msg = a ++ kor ++ b) ∧
        (∃ a b : String, msg = a ++ eng ++ b) := by
  rcases h with hn | hp
  · have h1 : get_column_name cols "품명" "name" "품명(상품명)"
        = Except.error "products.csv에 '품명' 또는 'name' 열이 필요합니다. (품명(상품명))" := by
      rw [get_column_name, if_neg hn.1, if_neg hn.2]
      exact congrArg Except.error (by decide)
    refine ⟨_, by rw [loadShopProducts, h1], "품명", "name",
      Or.inl ⟨rfl, rfl⟩, hn.1, hn.2,
      ⟨"products.csv에 '", "' 또는 'name' 열이 필요합니다. (품명(상품명))", by decide⟩,
      ⟨"products.csv에 '품명' 또는 '", "' 열이 필요합니다. (품명(상품명))", by decide⟩⟩
  · have h2 : get_column_name cols "가격" "price" "가격"
        = Except.error "products.csv에 '가격' 또는 'price' 열이 필요합니다. (가격)" := by
      rw [get_column_name, if_neg hp.1, if_neg hp.2]
      exact congrArg Except.error (by decide)
    by_cases hk : "품명" ∈ cols
    · have h1 : get_column_name cols "품명" "name" "품명(상품명)" = Except.ok "품명" := by
        rw [get_column_name, if_pos hk]
      refine ⟨_, by rw [loadShopProducts, h1, h2], "가격", "price",
        Or.inr ⟨rfl, rfl⟩, hp.1, hp.2,
        ⟨"products.csv에 '", "' 또는 'price' 열이 필요합니다. (가격)", by decide⟩,
        ⟨"products.csv에 '가격' 또는 '", "' 열이 필요합니다. (가격)", by decide⟩⟩
    · by_cases he : "name" ∈ cols
      · have h1 : get_column_name cols "품명" "name" "품명(상품명)" = Except.ok "name" := by
          rw [get_column_name, if_neg hk, if_pos he]
        refine ⟨_, by rw [loadShopProducts, h1, h2], "가격", "price",
          Or.inr ⟨rfl, rfl⟩, hp.1, hp.2,
          ⟨"products.csv에 '", "' 또는 'price' 열이 필요합니다. (가격)", by decide⟩,
          ⟨"products.csv에 '가격' 또는 '", "' 열이 필요합니다. (가격)", by decide⟩⟩
      · have h1 : get_column_name cols "품명" "name" "품명(상품명)"
            = Except.error "products.csv에 '품명' 또는 'name' 열이 필요합니다. (품명(상품명))" := by
          rw [get_column_name, if_neg hk, if_neg he]
          exact congrArg Except.error (by decide)
        refine ⟨_, by rw [loadShopProducts, h1], "품명", "name",
          Or.inl ⟨rfl, rfl⟩, hk, he,
          ⟨"products.csv에 '", "' 또는 'name' 열이 필요합니다. (품명(상품명))", by decide⟩,
          ⟨"products.csv에 '품명' 또는 '", "' 열이 필요합니다. (품명(상품명))", by decide⟩⟩

theorem missing_column_halts_witness :
    ∃ msg : String,
      loadShopProducts ["품명"] [] = Except.error msg ∧
      ∃ kor eng : String,
        ((kor = "품명" ∧ eng = "name") ∨ (kor = "가격" ∧ eng = "price")) ∧
        kor ∉ (["품명"] : List String) ∧ eng ∉ (["품명"] : List String) ∧
        (∃ a b : String, msg = a ++ kor ++ b) ∧
        (∃ a b : String, msg = a ++ eng ++ b) :=
  missing_column_halts ["품명"] [] (Or.inr ⟨by decide, by decide⟩)

lemma buildProducts_length (nc pc : String) (ic : Option String)
    (rows : List (String → Cell)) (ps : List Product)
    (h : buildProducts nc pc ic rows = Except.ok ps) :
    ps.length = rows.length := by
  induction rows generalizing ps with
  | nil =>
    simp only [buildProducts] at h
    injection h with h2
    rw [← h2]
    rfl
  | cons r t ih =>
    simp only [buildProducts] at h
    cases hr : rowPrice (r pc) with
    | error e =>
      simp only [hr] at h
      exact Except.noConfusion h
    | ok p =>
      simp only [hr] at h
      cases hb : buildProducts nc pc ic t with
      | error e =>
        simp only [hb] at h
        exact Except.noConfusion h
      | ok ps2 =>
        simp only [hb] at h
        injection h with h2
        rw [← h2]
        simp [ih ps2 hb]

/-- C7. A catalog row whose price cell cannot be parsed as a number
(`float()` raises `ValueError`) gets price `0` with no error: its product
record is still produced (one record per row, none dropped), and adding it
to the cart on the shop screen appends a cart entry with price `0`. -/
theorem unparseable_price_zero (c : Cell) (nm : String) (img : Option String)
    (s : SessionState) (cols : List String) (rows : List (String → Cell))
    (ps : List Product) (h : pyFloat c = none) (hp : s.page = Screen.shop)
    (hm : s.mission.isSome) (hok : loadShopProducts cols rows = Except.ok ps) :
    rowPrice c = Except.ok 0 ∧
    (step s (Action.addToCart
        { name := nm, price := 0, image_url := img })).cart
      = s.cart ++ [{ name := nm, price := 0, image_url := img }] ∧
    ps.length = rows.length := by
  refine ⟨by rw [rowPrice, h], ?_, ?_⟩
  · simp [step, hp, hm]
  · rw [loadShopProducts] at hok
    split at hok
    · exact Except.noConfusion hok
    · split at hok
      · exact Except.noConfusion hok
      · exact buildProducts_length _ _ _ _ _ hok

theorem unparseable_price_zero_witness :
    rowPrice (Cell.str "abc") = Except.ok 0 ∧
    (step
        { page := Screen.shop, mission := some "절약형 장보기 (예산 10,000원)",
          budget := 10000, cart := [], reason := "" }
        (Action.addToCart
          { name := "Mystery", price := 0, image_url := none })).cart
      = ([] : List CartItem)
          ++ [{ name := "Mystery", price := 0, image_url := none }] ∧
    ([{ name := Cell.str "Mystery", price := 0, image_url := none }]
        : List Product).length
      = ([fun c => if c = "name" then Cell.str "Mystery" else Cell.str "abc"]
          : List (String → Cell)).length :=
  unparseable_price_zero (Cell.str "abc") "Mystery" none
    { page := Screen.shop, mission := some "절약형 장보기 (예산 10,000원)",
      budget := 10000, cart := [], reason := "" }
    ["name", "price"]
    [fun c => if c = "name" then Cell.str "Mystery" else Cell.str "abc"]
    [{ name := Cell.str "Mystery", price := 0, image_url := none }]
    rfl rfl rfl rfl

lemma foldl_push {α β : Type _} (f : α → β) (l : List α) (acc : List β) :
    l.foldl (fun a x => a ++ [f x]) acc = acc ++ l.map f := by
  induction l generalizing acc with
  | nil => simp
  | cons a t ih => simp [ih]

lemma foldl_push_id (l acc : List String) :
    l.foldl (fun a w => a ++ [w]) acc = acc ++ l := by
  induction l generalizing acc with
  | nil => simp
  | cons a t ih => simp [ih]

lemma reason_foldl (l acc : List String) :
    l.foldl
        (fun acc para =>
          if pyStrip para = "" then acc ++ [""]
          else (pyWrap 30 para).foldl (fun a w => a ++ [w]) acc) acc
      = acc ++ l.flatMap
          (fun para => if pyStrip para = "" then [""] else pyWrap 30 para) := by
  induction l generalizing acc with
  | nil => simp
  | cons p t ih =>
    simp only [List.foldl_cons]
    by_cases hp : pyStrip p = ""
    · rw [if_pos hp, ih]
      simp [hp]
    · rw [if_neg hp, foldl_push_id, ih]
      simp [hp]

lemma reason_foldl2 (l acc : List String) :
    l.foldl
        (fun acc para =>
          if pyStrip para = "" then acc ++ [""] else acc ++ pyWrap 30 para) acc
      = acc ++ l.flatMap
          (fun para => if pyStrip para = "" then [""] else pyWrap 30 para) := by
  induction l generalizing acc with
  | nil => simp
  | cons p t ih =>
    simp only [List.foldl_cons]
    by_cases hp : pyStrip p = ""
    · rw [if_pos hp, ih]
      simp [hp]
    · rw [if_neg hp, ih]
      simp [hp]

/-- Behavioural checks of `pyWrap` against `textwrap.wrap` with default
options on texts exercising preserved whitespace runs, tab expansion,
hyphen breaking, long-word filling and em-dash splitting. -/
lemma pyWrap_textwrap_cases :
    pyWrap 30 "hello  world" = ["hello  world"] ∧
    pyWrap 30 "a\tb" = ["a       b"] ∧
    pyWrap 10 "aaaa well-known" = ["aaaa well-", "known"] ∧
    pyWrap 10 "aa bbbbbbbbbbbbbbbbbbbbbbbbbbbbbbbbbbb"
      = ["aa bbbbbbb", "bbbbbbbbbb", "bbbbbbbbbb", "bbbbbbbb"] ∧
    pyWrap 10 "Look, goof-ball -- use the -b option!"
      = ["Look,", "goof-ball", "-- use the", "-b option!"] := by
  refine ⟨by decide, by decide, by decide, by decide, by decide⟩

/-- Behavioural checks of `pyFloat` against the Python builtin `float()`
on exponent, underscore, sign, infinity, NaN and malformed inputs. -/
lemma pyFloat_float_cases :
    pyFloat (Cell.str "1e3") = some (PyFloatVal.finite 1000) ∧
    pyFloat (Cell.str "1_5") = some (PyFloatVal.finite 15) ∧
    pyFloat (Cell.str "-2.5e-1") = some (PyFloatVal.finite (mkRat (-1) 4)) ∧
    pyFloat (Cell.str " inf ") = some PyFloatVal.posInf ∧
    pyFloat (Cell.str "-Infinity") = some PyFloatVal.negInf ∧
    pyFloat (Cell.str "NaN") = some PyFloatVal.nan ∧
    pyFloat (Cell.str "1_") = none ∧
    pyFloat (Cell.str "1__2") = none ∧
    pyFloat (Cell.str "abc") = none ∧
    pyFloat (Cell.str "") = none := by
  refine ⟨by decide, by decide, by decide, by decide, by decide, by decide,
    by decide, by decide, by decide, by decide⟩

/-- C4. The submission renderer builds its lines in the specified order:
mission line, budget line (thousands separators and the 원 suffix), blank,
items header, one `- name (price원)` line per cart item or the no-items
placeholder, blank, justification header, then the justification split at
explicit line breaks into paragraphs word-wrapped at width 30, empty
paragraphs kept as blank lines. The concrete conjuncts check the spec's
example values. -/
theorem submission_lines_structure (m : String) (b : ℚ) (cart : List CartItem)
    (r : String) :
    buildLines m b cart r =
      [s!"미션: {m}", budgetLine b, "", "▶ 구매한 물품"]
      ++ (match cart with
          | [] => ["- (구매한 물품 없음)"]
          | _ :: _ => cart.map itemLine)
      ++ ["", "▶ 구매 이유"]
      ++ ((splitWhen (fun c => c == '\n') r.toList).map String.mk).flatMap
          (fun para => if pyStrip para = "" then [""] else pyWrap 30 para) ∧
    budgetLine 10000 = "예산: 10,000원" ∧
    itemLine { name := "Apple", price := 1500, image_url := none }
      = "- Apple (1,500원)" ∧
    buildLines "절약형 장보기 (예산 10,000원)" 10000
        [{ name := "Apple", price := 1500, image_url := none }] "test"
      = ["미션: 절약형 장보기 (예산 10,000원)", "예산: 10,000원", "", "▶ 구매한 물품",
         "- Apple (1,500원)", "", "▶ 구매 이유", "test"] ∧
    ((splitWhen (fun c => c == '\n') ("요리\n\n재료 준비").toList).map String.mk).flatMap
        (fun para => if pyStrip para = "" then [""] else pyWrap 30 para)
      = ["요리", "", "재료 준비"] ∧
    pyWrap 30 "hello  world" = ["hello  world"] ∧
    pyWrap 30 "장보기 예산을 지키려고 가장 싼 우유를 골랐습니다. 남은 돈은 저금합니다."
      = ["장보기 예산을 지키려고 가장 싼 우유를 골랐습니다.", "남은 돈은 저금합니다."] := by
  refine ⟨?_, by decide, by decide, by decide, by decide, by decide, by decide⟩
  rw [buildLines]
  cases cart with
  | nil => simp [reason_foldl, reason_foldl2, foldl_push]
  | cons a t => simp [reason_foldl, reason_foldl2, foldl_push]

lemma natDiv_bounds (n d : ℕ) (hd : 0 < d) :
    ((n / d : ℕ) : ℚ) ≤ (n : ℚ) / (d : ℚ) ∧
    (n : ℚ) / (d : ℚ) - 1 < ((n / d : ℕ) : ℚ) := by
  have hd' : (0 : ℚ) < (d : ℚ) := by exact_mod_cast hd
  constructor
  · rw [le_div_iff₀ hd']
    exact_mod_cast Nat.div_mul_le_self n d
  · rw [sub_lt_iff_lt_add, div_lt_iff₀ hd']
    have h2 : n < (n / d + 1) * d := by
      calc n = d * (n / d) + n % d := (Nat.div_add_mod n d).symm
        _ < d * (n / d) + d := Nat.add_lt_add_left (Nat.mod_lt n hd) _
        _ = (n / d + 1) * d := by ring
    exact_mod_cast h2

lemma pyInt_abs_bounds (q : ℚ) :
    |(pyInt q : ℚ)| ≤ |q| ∧ |q| - 1 < |(pyInt q : ℚ)| := by
  have hd := Rat.den_pos q
  rcases le_or_lt 0 q.num with h | h
  · have hq : 0 ≤ q := Rat.num_nonneg.mp h
    have hpy : pyInt q = ((q.num.toNat / q.den : ℕ) : ℤ) := by rw [pyInt, if_pos h]
    have habs : |(pyInt q : ℚ)| = ((q.num.toNat / q.den : ℕ) : ℚ) := by
      rw [hpy, abs_of_nonneg (by positivity)]
      norm_cast
    have hq_eq : |q| = ((q.num.toNat : ℕ) : ℚ) / ((q.den : ℕ) : ℚ) := by
      rw [abs_of_nonneg hq]
      conv_lhs => rw [← Rat.num_div_den q]
      congr 1
      exact_mod_cast congrArg (fun z : ℤ => (z : ℚ)) (Int.toNat_of_nonneg h).symm
    rw [habs, hq_eq]
    exact natDiv_bounds q.num.toNat q.den hd
  · have hq : q < 0 := Rat.num_neg.mp h
    have hn : (0 : ℤ) ≤ -q.num := by omega
    have hpy : pyInt q = -(((-q.num).toNat / q.den : ℕ) : ℤ) := by
      rw [pyInt, if_neg (by omega)]
    have habs : |(pyInt q : ℚ)| = (((-q.num).toNat / q.den : ℕ) : ℚ) := by
      rw [hpy, Int.cast_neg, abs_neg, abs_of_nonneg (by positivity)]
      norm_cast
    have hq_eq : |q| = (((-q.num).toNat : ℕ) : ℚ) / ((q.den : ℕ) : ℚ) := by
      rw [abs_of_neg hq]
      conv_lhs => rw [← Rat.num_div_den q, ← neg_div]
      congr 1
      exact_mod_cast congrArg (fun z : ℤ => (z : ℚ)) (Int.toNat_of_nonneg hn).symm
    rw [habs, hq_eq]
    exact natDiv_bounds (-q.num).toNat q.den hd

/-- C10. The rendered budget and item prices are truncated toward zero
before thousands-separator formatting: both lines format
`formatComma (pyInt price)`, `pyInt` never rounds away from zero and drops
less than one unit (the general bounds), and the price 1500.9
(= `mkRat 15009 10`) renders as `1,500원`, not rounded up. -/
theorem render_truncates_prices (nm : String) :
    (∀ it : CartItem,
      itemLine it = "- " ++ it.name ++ " (" ++ formatComma (pyInt it.price) ++ "원)") ∧
    (∀ b : ℚ, budgetLine b = "예산: " ++ formatComma (pyInt b) ++ "원") ∧
    (mkRat 15009 10 : ℚ) = 15009 / 10 ∧
    pyInt (mkRat 15009 10) = 1500 ∧
    itemLine { name := nm, price := mkRat 15009 10, image_url := none }
      = "- " ++ nm ++ " (1,500원)" ∧
    budgetLine (mkRat 15009 10) = "예산: 1,500원" ∧
    ∀ q : ℚ, |(pyInt q : ℚ)| ≤ |q| ∧ |q| - 1 < |(pyInt q : ℚ)| := by
  refine ⟨fun it => rfl, fun b => rfl, by norm_num [Rat.mkRat_eq_div], by decide,
    ?_, by decide, pyInt_abs_bounds⟩
  have h : formatComma (pyInt (mkRat 15009 10)) = "1,500" := by decide
  simp [itemLine, h, String.append_assoc]
  rfl

end BudgetApp
